import Mathlib

/-!
Verification development for the Punisher-demo pull-request review agent.

The Python source (pr_reviewer_agent.py, memory_system.py, code_analyzer.py,
github_connection.py) is shallowly embedded here:

* Python values flowing through the untyped review pipeline (parsed oracle
  JSON, coding-standard documents, scores) are modelled by the inductive
  `PyVal`; Python `dict`s are association lists with `dict`-style lookup,
  per-key overwrite (`dset`/`dupdate` model `d[k] = v` / `d.update(...)`).
* The external collaborators (GitHub client, LLM HTTP endpoint) are modelled
  by an `Env` of response functions.  A transport-level oracle answer is
  `LLMResp.ok (some v)` when the embedded text parses as JSON value `v`,
  `LLMResp.ok none` when the text is not valid JSON (so `json.loads` raises),
  and `LLMResp.httpErr` for a non-200 status.  The exact prompt string sent
  over the wire is not modelled; the response is a function of the inputs
  from which the prompt is built (code, path, standards).
* Python exceptions are `Except String`; a raised exception propagates to the
  `try`/`except` boundary of `review_pull_request` exactly as in the source.
* External calls made while reviewing are recorded in a `TraceEv` list so
  that properties such as "no second submitReview call" are statable.
* Python floats are modelled exactly by `ℚ` (the claims only involve exact
  decimal values), and `time.time()` by an `Env.now` stamp.
-/

/-- Untyped Python values (the subset produced by `json.loads` plus the
literals appearing in the source). -/
inductive PyVal where
  | pnull
  | pbool (b : Bool)
  | pint (n : Int)
  | pstr (s : String)
  | plist (xs : List PyVal)
  | pdict (fields : List (String × PyVal))
deriving Repr

/-- Python `dict` lookup `d.get(k)` on an association list: first binding wins. -/
def dget {α : Type} : List (String × α) → String → Option α
  | [], _ => none
  | p :: d, k => if p.1 = k then some p.2 else dget d k

/-- Python `k in d` key-membership test. -/
def dhas {α : Type} : List (String × α) → String → Bool
  | [], _ => false
  | p :: d, k => p.1 = k || dhas d k

/-- Python `d[k] = v`: overwrite the binding in place if the key exists,
otherwise append it (insertion order is preserved, as for a Python dict). -/
def dset {α : Type} (d : List (String × α)) (k : String) (v : α) : List (String × α) :=
  if dhas d k then d.map (fun p => if p.1 = k then (k, v) else p) else d ++ [(k, v)]

/-- Python `d.update(other)`: `d[k] = v` for each binding of `other` in order. -/
def dupdate {α : Type} (d other : List (String × α)) : List (String × α) :=
  other.foldl (fun m kv => dset m kv.1 kv.2) d

/-- Python `str.lower()` (character-wise, ASCII range as in the extensions used). -/
def strLower (s : String) : String := String.mk (s.data.map Char.toLower)

/-- Python `str.upper()`. -/
def strUpper (s : String) : String := String.mk (s.data.map Char.toUpper)

mutual

/-- Python `repr` of a value, used when a non-string value is interpolated
inside an f-string via `str`.  (None of the claims constrain this text.) -/
def pyRepr : PyVal → String
  | .pnull => "None"
  | .pbool true => "True"
  | .pbool false => "False"
  | .pint n => toString n
  | .pstr s => "\x27" ++ s ++ "\x27"
  | .plist xs => "[" ++ String.intercalate ", " (pyReprList xs) ++ "]"
  | .pdict fs => "\x7b" ++ String.intercalate ", " (pyReprFields fs) ++ "\x7d"

def pyReprList : List PyVal → List String
  | [] => []
  | x :: xs => pyRepr x :: pyReprList xs

def pyReprFields : List (String × PyVal) → List String
  | [] => []
  | (k, v) :: fs => ("\x27" ++ k ++ "\x27: " ++ pyRepr v) :: pyReprFields fs

end

/-- Python `str(v)`, as used by f-string interpolation. -/
def pyStr : PyVal → String
  | .pstr s => s
  | v => pyRepr v

/-- Python `v.get(key, default)`: raises `AttributeError` unless `v` is a dict. -/
def pyGet (v : PyVal) (key : String) (dflt : PyVal) : Except String PyVal :=
  match v with
  | .pdict fs => .ok ((dget fs key).getD dflt)
  | _ => .error "AttributeError: object has no attribute get"

/-- Python `v[key]` subscript: `KeyError` when the key is absent from a dict,
`TypeError` when `v` is not a dict. -/
def pyIndex (v : PyVal) (key : String) : Except String PyVal :=
  match v with
  | .pdict fs =>
    match dget fs key with
    | some w => .ok w
    | none => .error ("KeyError: " ++ key)
  | _ => .error "TypeError: indices must be valid for this type"

/-- Python `len(v)`: defined for lists, strings and dicts, `TypeError` otherwise. -/
def pyLen (v : PyVal) : Except String Nat :=
  match v with
  | .plist xs => .ok xs.length
  | .pstr s => .ok s.length
  | .pdict fs => .ok fs.length
  | _ => .error "TypeError: object has no len"

/-- Python `for x in v`: lists yield elements, strings yield one-character
strings, dicts yield keys; other values raise `TypeError`. -/
def pyIter (v : PyVal) : Except String (List PyVal) :=
  match v with
  | .plist xs => .ok xs
  | .pstr s => .ok (s.data.map (fun c => .pstr (String.mk [c])))
  | .pdict fs => .ok (fs.map (fun p => .pstr p.1))
  | _ => .error "TypeError: object is not iterable"

/-- Python attribute access `v.upper()` on a value expected to be a string:
`AttributeError` if it is not. -/
def pyAsStr (v : PyVal) : Except String String :=
  match v with
  | .pstr s => .ok s
  | _ => .error "AttributeError: object has no attribute upper"

/-- One element of the Python builtin `sum`: ints add as themselves, bools as 0/1
(`bool` is an `int` subclass), anything else raises `TypeError`. -/
def pyNumVal : PyVal → Except String Int
  | .pint n => .ok n
  | .pbool b => .ok (if b then 1 else 0)
  | _ => .error "TypeError: unsupported operand type for +"

/-- Python `sum(xs)` over a list of scores, raising at the first non-numeric
element exactly as `sum` does. -/
def pySum : List PyVal → Except String Int
  | [] => .ok 0
  | v :: vs => do
    let n ← pyNumVal v
    let rest ← pySum vs
    .ok (n + rest)

/- ## memory_system.py — MemorySystem (the Review Ledger) -/

/-- One aggregated per-file analysis entry, as appended to
`overall_analysis["file_analyses"]` in `review_pull_request`. -/
structure FileAnalysis where
  filename : String
  code_quality_score : PyVal
  issue_count : Nat
  suggestion_count : Nat
deriving Repr

/-- The `overall_analysis` dict of `review_pull_request`. -/
structure OverallAnalysis where
  file_count : Nat
  total_changes : Nat
  file_analyses : List FileAnalysis
deriving Repr

/-- The `review_data` dict stored in the Ledger by `review_pull_request`. -/
structure ReviewData where
  review_id : Nat
  pr_number : Nat
  repo_name : String
  comment_count : Nat
  summary : String
  overall_analysis : OverallAnalysis
deriving Repr

/-- One entry of `MemorySystem.review_history`. -/
structure HistoryEntry where
  pr_id : String
  timestamp : Nat
  review : ReviewData
deriving Repr

/-- Source `MemorySystem.__init__`: the four fields, all initially empty. -/
structure MemorySystem where
  reviewed_prs : List (String × ReviewData)
  org_repos : List String
  review_history : List HistoryEntry
  coding_standards : List (String × PyVal)
deriving Repr

/-- The freshly constructed `MemorySystem()`. -/
def memEmpty : MemorySystem :=
  { reviewed_prs := [], org_repos := [], review_history := [], coding_standards := [] }

/-- Source `MemorySystem.store_review(pr_id, review_data)`: upsert into
`reviewed_prs` and append one timestamped entry to `review_history`
(`time.time()` is passed in as `t`). -/
def store_review (m : MemorySystem) (pr_id : String) (review_data : ReviewData)
    (t : Nat) : MemorySystem :=
  { m with
    reviewed_prs := dset m.reviewed_prs pr_id review_data,
    review_history := m.review_history ++ [⟨pr_id, t, review_data⟩] }

/-- Source `MemorySystem.get_review(pr_id)`. -/
def get_review (m : MemorySystem) (pr_id : String) : Option ReviewData :=
  dget m.reviewed_prs pr_id

/-- Source `MemorySystem.update_coding_standards(standards)`: a Python
`dict.update`, i.e. shallow per-language overwrite. -/
def update_coding_standards (m : MemorySystem) (standards : List (String × PyVal)) :
    MemorySystem :=
  { m with coding_standards := dupdate m.coding_standards standards }

/-- Source `MemorySystem.set_org_repos(repos)`. -/
def set_org_repos (m : MemorySystem) (repos : List String) : MemorySystem :=
  { m with org_repos := repos }

/- ## code_analyzer.py — CodeAnalyzer -/

/-- The extension table of `CodeAnalyzer._detect_language`. -/
def language_map : List (String × String) :=
  [(".py", "Python"), (".js", "JavaScript"), (".ts", "TypeScript"),
   (".java", "Java"), (".c", "C"), (".cpp", "C++"), (".cs", "C#"),
   (".go", "Go"), (".rb", "Ruby"), (".php", "PHP"), (".swift", "Swift"),
   (".kt", "Kotlin"), (".rs", "Rust"), (".html", "HTML"), (".css", "CSS"),
   (".sql", "SQL")]

/-- Python `str.rfind(c)`: index of the last occurrence, `-1` if absent. -/
def rfindAux (c : Char) : List Char → Nat → Int → Int
  | [], _, acc => acc
  | x :: rest, i, acc => rfindAux c rest (i + 1) (if x = c then (i : Int) else acc)

/-- Python `str.rfind(c)` over the characters of a string. -/
def rfind (cs : List Char) (c : Char) : Int := rfindAux c cs 0 (-1)

/-- The extension component of `os.path.splitext` (posix `sep='/'`,
`extsep='.'`): the suffix from the last dot, provided that dot comes after
the last separator and the basename has a non-dot character before it. -/
def splitextExt (p : String) : String :=
  let cs := p.data
  let sepIndex := rfind cs '/'
  let dotIndex := rfind cs '.'
  if sepIndex < dotIndex then
    let filenamePart := (cs.take dotIndex.toNat).drop (sepIndex + 1).toNat
    if filenamePart.any (fun ch => ch ≠ '.') then String.mk (cs.drop dotIndex.toNat)
    else ""
  else ""

/-- Source `CodeAnalyzer._detect_language(file_path)`: lowercase the extension and
look it up, defaulting to "Unknown". -/
def detect_language (file_path : String) : String :=
  let ext := strLower (splitextExt file_path)
  (dget language_map ext).getD "Unknown"

/-- The transport-level outcome of the `requests.post` to the LLM endpoint:
status 200 whose `result["choices"][0]["text"]` parses as JSON value `v`
(`ok (some v)`), status 200 whose text is not valid JSON (`ok none`, so
`json.loads` raises), or a non-200 status. -/
inductive LLMResp where
  | ok (answer : Option PyVal)
  | httpErr (status : Nat) (body : String)
deriving Repr

/-- A file entry of `get_pull_request_files`. -/
structure FileChange where
  filename : String
  status : String
  additions : Nat
  deletions : Nat
  changes : Nat
  patch : String
  content : String
deriving Repr, DecidableEq

/-- The dict returned by `GitHubConnector.submit_review`. -/
structure SubmitResult where
  id : Nat
  body : String
  state : String
deriving Repr, DecidableEq

/-- One open pull request as returned by `get_open_pull_requests`. -/
structure PRInfo where
  id : Nat
  number : Nat
  title : String
  user : String
  created_at : String
  updated_at : String
  url : String
deriving Repr, DecidableEq

/-- Source `{"repo": repo_name, **pr}` as built by `scan_for_new_prs`. -/
structure PRItem where
  repo : String
  pr : PRInfo
deriving Repr, DecidableEq

/-- A GitHub review comment built by `format_review_comments`. -/
structure Comment where
  path : String
  position : PyVal
  body : String
deriving Repr

/-- The external world: responses of the GitHub client and of the LLM
endpoint, plus the current clock value.  `Except.error` models a raised
exception in the corresponding client call. -/
structure Env where
  org_repos : List String
  open_prs : String → Except String (List PRInfo)
  pr_files : String → Nat → Except String (List FileChange)
  llm : String → String → PyVal → LLMResp
  submit : String → Nat → List Comment → String → String → Except String SubmitResult
  now : Nat

/-- Source `CodeAnalyzer.analyze_code(code, file_path, coding_standards)`:
one POST to the LLM endpoint.  On status 200 the embedded answer text is
parsed with `json.loads` (`.error` models the raised `JSONDecodeError` when
it is not valid JSON); on any other status the error dict
`{"error": ..., "message": ...}` is returned without raising. -/
def analyze_code (env : Env) (code : String) (file_path : String)
    (coding_standards : PyVal) : Except String PyVal :=
  match env.llm code file_path coding_standards with
  | .ok (some analysis) => .ok analysis
  | .ok none => .error "json.decoder.JSONDecodeError: Expecting value"
  | .httpErr status body =>
    .ok (.pdict [("error", .pstr ("API request failed with status " ++ toString status)),
                 ("message", .pstr body)])

/-- The comment built for one element of `analysis["issues"]` (accesses in
source order: `line_number`, then `severity` with `.upper()`, `description`,
`suggestion`; a missing key raises `KeyError`). -/
def format_issue_comment (file_path : String) (issue : PyVal) : Except String Comment := do
  let ln ← pyIndex issue "line_number"
  let sev ← pyIndex issue "severity"
  let sevStr ← pyAsStr sev
  let desc ← pyIndex issue "description"
  let sugg ← pyIndex issue "suggestion"
  .ok { path := file_path, position := ln,
        body := "**" ++ strUpper sevStr ++ " Issue**: " ++ pyStr desc ++
                "\n\nSuggestion: " ++ pyStr sugg }

/-- The comment built for one element of `analysis["suggested_changes"]`
(source order: the body f-string reads `suggested_code` and `explanation`,
then the comment dict reads `line_number`). -/
def format_change_comment (file_path : String) (change : PyVal) : Except String Comment := do
  let sc ← pyIndex change "suggested_code"
  let ex ← pyIndex change "explanation"
  let ln ← pyIndex change "line_number"
  .ok { path := file_path, position := ln,
        body := "**Suggested Change**:\n\n```suggestion\n" ++ pyStr sc ++
                "\n```\n\n" ++ pyStr ex }

/-- Source `CodeAnalyzer.format_review_comments(analysis, file_path)`: one comment
per issue, then one per suggested change; `analysis.get` defaults a missing
`issues` / `suggested_changes` key to the empty list. -/
def format_review_comments (analysis : PyVal) (file_path : String) :
    Except String (List Comment) := do
  let issuesVal ← pyGet analysis "issues" (.plist [])
  let issues ← pyIter issuesVal
  let issueComments ← issues.mapM (format_issue_comment file_path)
  let changesVal ← pyGet analysis "suggested_changes" (.plist [])
  let changes ← pyIter changesVal
  let changeComments ← changes.mapM (format_change_comment file_path)
  .ok (issueComments ++ changeComments)

/- ## pr_reviewer_agent.py — PRReviewerAgent -/

/-- External calls observed while the orchestrator runs: the entry into
`review_pull_request` for a PR, each oracle POST (with the code and path it
was built from), and each `submit_review` call. -/
inductive TraceEv where
  | oracleCall (code : String) (file_path : String)
  | reviewCall (repo : String) (num : Nat)
  | submitCall (repo : String) (num : Nat)
deriving Repr, DecidableEq

/-- The loop state of the per-file `for file in files` loop of
`review_pull_request`.  `err` models a raised exception: once set, the loop
body no longer runs (the exception is propagating). -/
structure FoldAcc where
  comments : List Comment
  analyses : List FileAnalysis
  tr : List TraceEv
  err : Option String
deriving Repr

/-- The dedup key `f"{repo_name}_{pr_number}"`. -/
def prKey (repo_name : String) (pr_number : Nat) : String :=
  repo_name ++ "_" ++ toString pr_number

/-- The body of the per-file loop of `review_pull_request`: skip empty or
oversized content, look up the standards for the detected language, call the
oracle, format comments, and append the per-file analysis entry.  Any raise
(`json.loads`, attribute/key/type errors) is captured in `err`. -/
def processFile (env : Env) (mem : MemorySystem) (acc : FoldAcc) (file : FileChange) :
    FoldAcc :=
  if acc.err.isSome then acc
  else if file.content = "" ∨ 100000 < file.content.length then acc
  else
    let language := detect_language file.filename
    let standards := (dget mem.coding_standards language).getD (.pdict [])
    match analyze_code env file.content file.filename standards with
    | .error e => { acc with tr := acc.tr ++ [.oracleCall file.content file.filename],
                             err := some e }
    | .ok analysis =>
      let step : Except String (List Comment × FileAnalysis) := do
        let file_comments ← format_review_comments analysis file.filename
        let score ← pyGet analysis "code_quality_score" (.pint 0)
        let issuesVal ← pyGet analysis "issues" (.plist [])
        let issue_count ← pyLen issuesVal
        let changesVal ← pyGet analysis "suggested_changes" (.plist [])
        let suggestion_count ← pyLen changesVal
        .ok (file_comments, { filename := file.filename, code_quality_score := score,
                              issue_count := issue_count,
                              suggestion_count := suggestion_count })
      match step with
      | .error e => { acc with tr := acc.tr ++ [.oracleCall file.content file.filename],
                               err := some e }
      | .ok (file_comments, fa) =>
        { comments := acc.comments ++ file_comments,
          analyses := acc.analyses ++ [fa],
          tr := acc.tr ++ [.oracleCall file.content file.filename],
          err := none }

/-- Source `quality_scores = [f["code_quality_score"] for f in file_analyses if
"code_quality_score" in f]` (the key is always present in the entries the source builds) followed by `avg_quality = sum(...)/len(...) if quality_scores else 0`.
`sum` can raise a `TypeError` on non-numeric scores. -/
def avgQuality (file_analyses : List FileAnalysis) : Except String ℚ :=
  let quality_scores := file_analyses.map (fun f => f.code_quality_score)
  if quality_scores.isEmpty then .ok 0
  else do
    let s ← pySum quality_scores
    .ok ((s : ℚ) / (quality_scores.length : ℚ))

/-- Round-half-even to an integer, as the Python float formatting rounds. -/
def roundHalfEven (q : ℚ) : Int :=
  let f := q.floor
  let r := q - (f : ℚ)
  if r < 1 / 2 then f
  else if 1 / 2 < r then f + 1
  else if f % 2 = 0 then f else f + 1

/-- Python `format(x, ".1f")` on the exact rational value. -/
def fmt1 (q : ℚ) : String :=
  let n := roundHalfEven (q * 10)
  if n < 0 then "-" ++ toString ((-n) / 10) ++ "." ++ toString ((-n) % 10)
  else toString (n / 10) ++ "." ++ toString (n % 10)

/-- Source `sum(f["changes"] for f in files)`. -/
def sumChanges (files : List FileChange) : Nat :=
  (files.map (fun f => f.changes)).sum

/-- The Markdown `summary` f-string of `review_pull_request`, including the
per-file breakdown lines appended in the final loop. -/
def renderSummary (avg_quality : ℚ) (file_count total_changes : Nat)
    (file_analyses : List FileAnalysis) : String :=
  let header := "# PR Review Summary\n\nOverall code quality score: " ++ fmt1 avg_quality ++
    "/10\n\nReviewed " ++ toString file_count ++ " files with " ++
    toString total_changes ++ " changes.\nFound " ++
    toString ((file_analyses.map (fun f => f.issue_count)).sum) ++
    " issues.\nProvided " ++
    toString ((file_analyses.map (fun f => f.suggestion_count)).sum) ++
    " suggestions.\n\n## File-by-File Breakdown:\n"
  file_analyses.foldl
    (fun s fa => s ++ "- **" ++ fa.filename ++ "**: Score " ++
      pyStr fa.code_quality_score ++ "/10, " ++ toString fa.issue_count ++
      " issues, " ++ toString fa.suggestion_count ++ " suggestions\n")
    header

/-- The value returned by `review_pull_request`: the stored `review_data`
dict on success, or the `{"error": error_msg}` dict built by the `except`
branch. -/
inductive ReviewResult where
  | ok (d : ReviewData)
  | err (msg : String)
deriving Repr

/-- Whether a `ReviewResult` is the success dict. -/
def ReviewResult.isOk : ReviewResult → Bool
  | .ok _ => true
  | .err _ => false

/-- Source `error_msg = f"Error reviewing PR #{pr_number} in {repo_name}: {str(e)}"`. -/
def reviewErrMsg (repo_name : String) (pr_number : Nat) (e : String) : String :=
  "Error reviewing PR #" ++ toString pr_number ++ " in " ++ repo_name ++ ": " ++ e

/-- The full outcome of one `review_pull_request` call: returned value,
memory state after the call, and the trace of external calls made. -/
structure RPROut where
  res : ReviewResult
  st : MemorySystem
  tr : List TraceEv
deriving Repr

/-- Source `PRReviewerAgent.review_pull_request(repo_name, pr_number)`.  The whole
pipeline runs inside `try`; any raise is converted to the error dict and —
since `store_review` is the only memory mutation and is last — leaves the
Ledger untouched.  On success the `review_data` is stored under
`prKey repo_name pr_number`. -/
def review_pull_request (env : Env) (mem : MemorySystem) (repo_name : String)
    (pr_number : Nat) : RPROut :=
  match env.pr_files repo_name pr_number with
  | .error e =>
    { res := .err (reviewErrMsg repo_name pr_number e), st := mem,
      tr := [.reviewCall repo_name pr_number] }
  | .ok files =>
    let acc := files.foldl (processFile env mem) ⟨[], [], [], none⟩
    match acc.err with
    | some e =>
      { res := .err (reviewErrMsg repo_name pr_number e), st := mem,
        tr := .reviewCall repo_name pr_number :: acc.tr }
    | none =>
      match avgQuality acc.analyses with
      | .error e =>
        { res := .err (reviewErrMsg repo_name pr_number e), st := mem,
          tr := .reviewCall repo_name pr_number :: acc.tr }
      | .ok avg_quality =>
        let summary := renderSummary avg_quality files.length (sumChanges files) acc.analyses
        match env.submit repo_name pr_number acc.comments summary "COMMENT" with
        | .error e =>
          { res := .err (reviewErrMsg repo_name pr_number e), st := mem,
            tr := .reviewCall repo_name pr_number :: acc.tr ++ [.submitCall repo_name pr_number] }
        | .ok review_result =>
          let review_data : ReviewData :=
            { review_id := review_result.id, pr_number := pr_number,
              repo_name := repo_name, comment_count := acc.comments.length,
              summary := summary,
              overall_analysis := { file_count := files.length,
                                    total_changes := sumChanges files,
                                    file_analyses := acc.analyses } }
          { res := .ok review_data,
            st := store_review mem (prKey repo_name pr_number) review_data env.now,
            tr := .reviewCall repo_name pr_number :: acc.tr ++ [.submitCall repo_name pr_number] }

/-- Source `PRReviewerAgent.scan_for_new_prs()`: iterate `memory.org_repos`; a raise
while listing the PRs of one repository is caught, logged and skipped. -/
def scan_for_new_prs (env : Env) (mem : MemorySystem) : List PRItem :=
  mem.org_repos.foldl
    (fun all_prs repo_name =>
      match env.open_prs repo_name with
      | .ok prs => all_prs ++ prs.map (fun pr => { repo := repo_name, pr := pr })
      | .error _ => all_prs)
    []

/-- Source `PRReviewerAgent.update_org_repos()`: refresh `memory.org_repos` from the
platform. -/
def update_org_repos (env : Env) (mem : MemorySystem) : MemorySystem :=
  set_org_repos mem env.org_repos

/-- One iteration of the `for pr in open_prs` loop of
`run_continuous_review`: review the PR only when its key is not yet in
`reviewed_prs`. -/
def cycleStep (env : Env) (acc : MemorySystem × List TraceEv) (pr : PRItem) :
    MemorySystem × List TraceEv :=
  let pr_id := prKey pr.repo pr.pr.number
  if dhas acc.1.reviewed_prs pr_id then acc
  else
    let out := review_pull_request env acc.1 pr.repo pr.pr.number
    (out.st, acc.2 ++ out.tr)

/-- One pass of the `while True` body of
`PRReviewerAgent.run_continuous_review`: refresh the repository list, scan,
then review every discovered PR whose key is absent from the Ledger. -/
def run_continuous_cycle (env : Env) (mem : MemorySystem) :
    MemorySystem × List TraceEv :=
  let mem1 := update_org_repos env mem
  let open_prs := scan_for_new_prs env mem1
  open_prs.foldl (cycleStep env) (mem1, [])

/-- Run `n` consecutive passes of the continuous loop, with the concatenated
trace of external calls. -/
def run_continuous_cycles (env : Env) (mem : MemorySystem) :
    Nat → MemorySystem × List TraceEv
  | 0 => (mem, [])
  | n + 1 =>
    let out1 := run_continuous_cycle env mem
    let rest := run_continuous_cycles env out1.1 n
    (rest.1, out1.2 ++ rest.2)

/- ## Shared lemmas about the dict embedding -/

theorem dget_eq_none_of_dhas_false {α : Type} (d : List (String × α)) (k : String)
    (h : dhas d k = false) : dget d k = none := by
  induction d with
  | nil => rfl
  | cons p d ih =>
    simp only [dhas, Bool.or_eq_false_iff] at h
    simp only [dget]
    rw [if_neg (by simpa using h.1)]
    exact ih h.2

theorem dhas_eq_isSome {α : Type} (d : List (String × α)) (k : String) :
    dhas d k = (dget d k).isSome := by
  induction d with
  | nil => rfl
  | cons p d ih =>
    simp only [dhas, dget]
    by_cases h : p.1 = k <;> simp [h, ih]

theorem dget_map_overwrite {α : Type} (d : List (String × α)) (k k' : String) (v : α) :
    dget (d.map (fun p => if p.1 = k then (k, v) else p)) k' =
      if k' = k then (if dhas d k then some v else none) else dget d k' := by
  induction d with
  | nil => simp [dget, dhas]
  | cons p d ih =>
    by_cases hpk : p.1 = k
    · by_cases hk : k' = k
      · simp [dget, dhas, hpk, hk]
      · simp [dget, dhas, hpk, hk, ih, Ne.symm hk]
    · by_cases hpk' : p.1 = k'
      · have hk : ¬ k' = k := fun h => hpk (h ▸ hpk')
        simp [dget, dhas, hpk, hpk', hk]
      · simp [dget, dhas, hpk, hpk', ih]

theorem dget_append {α : Type} (d1 d2 : List (String × α)) (k : String) :
    dget (d1 ++ d2) k = match dget d1 k with
      | some v => some v
      | none => dget d2 k := by
  induction d1 with
  | nil => simp [dget]
  | cons p d ih =>
    by_cases h : p.1 = k <;> simp [dget, h, ih]

theorem dget_dset {α : Type} (d : List (String × α)) (k k' : String) (v : α) :
    dget (dset d k v) k' = if k' = k then some v else dget d k' := by
  unfold dset
  by_cases h : dhas d k
  · simp [h, dget_map_overwrite]
  · simp only [h, if_false, dget_append, Bool.false_eq_true]
    by_cases hk : k' = k
    · subst hk
      simp [dget_eq_none_of_dhas_false d k' (by simpa using h), dget]
    · rcases hg : dget d k' with _ | w
      · simp [dget, Ne.symm hk, hk]
      · simp [hk]

theorem dhas_dset {α : Type} (d : List (String × α)) (k k' : String) (v : α) :
    dhas (dset d k v) k' = (decide (k' = k) || dhas d k') := by
  rw [dhas_eq_isSome, dget_dset, dhas_eq_isSome]
  by_cases h : k' = k <;> simp [h]

/- ## C10 — language detection -/

/-- C10: `_detect_language` lowercases the extension before the table lookup,
so "MAIN.PY" maps to "Python" exactly like "main.py"; and every filename
whose lowercased extension is absent from the 16-entry table — including
filenames with no extension, whose extension is empty — maps to "Unknown". -/
theorem c10_detect_language_total :
    detect_language "MAIN.PY" = "Python" ∧
    detect_language "main.py" = "Python" ∧
    (∀ fp : String, dget language_map (strLower (splitextExt fp)) = none →
      detect_language fp = "Unknown") ∧
    (∀ fp : String, splitextExt fp = "" → detect_language fp = "Unknown") := by
  refine ⟨by decide, by decide, ?_, ?_⟩
  · intro fp h
    simp [detect_language, h]
  · intro fp h
    simp [detect_language, h]
    decide

/-- Witness for C10 at filenames with an unlisted extension and with no
extension at all. -/
theorem c10_detect_language_total_witness :
    detect_language "src/archive.tar" = "Unknown" ∧
    detect_language "Makefile" = "Unknown" :=
  ⟨c10_detect_language_total.2.2.1 "src/archive.tar" (by decide),
   c10_detect_language_total.2.2.2 "Makefile" (by decide)⟩

/- ## C3 — skip rule -/

/-- Concrete scenario for C3: one file with empty content and one ordinary
file; the oracle answers with an empty JSON object. -/
def fileEmpty : FileChange :=
  { filename := "empty.py", status := "modified", additions := 0, deletions := 0,
    changes := 0, patch := "", content := "" }

def fileGood : FileChange :=
  { filename := "good.py", status := "modified", additions := 1, deletions := 0,
    changes := 1, patch := "@@", content := "print(1)\n" }

def envC3 : Env :=
  { org_repos := ["demo"],
    open_prs := fun _ => .ok [],
    pr_files := fun _ _ => .ok [fileEmpty, fileGood],
    llm := fun _ _ _ => .ok (some (.pdict [])),
    submit := fun _ _ _ _ _ => .ok { id := 7, body := "", state := "COMMENTED" },
    now := 0 }

/-- C3: a file whose content is empty or longer than 100,000 characters is
skipped by the per-file loop before anything happens: no oracle call, no
comments, no per-file analysis entry (hence zero weight in the average).
Concretely, reviewing a request whose files are one empty file and one
ordinary file makes exactly one oracle call, for the ordinary file. -/
theorem c3_skip_rule :
    (∀ (env : Env) (mem : MemorySystem) (acc : FoldAcc) (file : FileChange),
      file.content = "" ∨ 100000 < file.content.length →
      processFile env mem acc file = acc) ∧
    (review_pull_request envC3 memEmpty "demo" 4).tr =
      [.reviewCall "demo" 4, .oracleCall "print(1)\n" "good.py", .submitCall "demo" 4] := by
  constructor
  · intro env mem acc file h
    unfold processFile
    by_cases he : acc.err.isSome = true
    · rw [if_pos he]
    · rw [if_neg he, if_pos h]
  · rfl

/-- Witness for C3 at the concrete empty-content file. -/
theorem c3_skip_rule_witness :
    processFile envC3 memEmpty ⟨[], [], [], none⟩ fileEmpty = ⟨[], [], [], none⟩ :=
  c3_skip_rule.1 envC3 memEmpty ⟨[], [], [], none⟩ fileEmpty (Or.inl rfl)

/- ## C5 — standards merge semantics -/

/-- The `default_standards` dict of `PRReviewerAgent.load_default_standards`. -/
def default_standards : List (String × PyVal) :=
  [("Python", .pdict [
      ("style_guide", .pstr "PEP 8"),
      ("max_line_length", .pint 88),
      ("docstring_style", .pstr "Google style"),
      ("prefer_type_hints", .pbool true)]),
   ("JavaScript", .pdict [
      ("style_guide", .pstr "Airbnb"),
      ("prefer_const", .pbool true),
      ("avoid_var", .pbool true),
      ("use_semicolons", .pbool true)]),
   ("Java", .pdict [
      ("style_guide", .pstr "Google Java Style Guide"),
      ("naming_conventions", .pdict [
        ("classes", .pstr "UpperCamelCase"),
        ("methods", .pstr "lowerCamelCase"),
        ("constants", .pstr "UPPER_SNAKE_CASE"),
        ("variables", .pstr "lowerCamelCase"),
        ("packages", .pstr "lowercase")]),
      ("formatting", .pdict [
        ("indent", .pint 2),
        ("line_length", .pint 100),
        ("braces", .pstr "same line"),
        ("line_wrapping", .pstr "4-space continuation indent")]),
      ("practices", .pdict [
        ("prefer_interfaces", .pbool true),
        ("avoid_public_fields", .pbool true),
        ("immutability", .pstr "prefer immutable when possible"),
        ("exception_handling", .pstr "use specific exceptions"),
        ("avoid_null", .pstr "use Optional<T> instead of null"),
        ("prefer_composition", .pstr "favor composition over inheritance")]),
      ("documentation", .pdict [
        ("javadoc_required", .plist [.pstr "public", .pstr "protected"]),
        ("javadoc_optional", .plist [.pstr "private", .pstr "package-private"]),
        ("method_comments", .pstr "describe parameters, return values, and exceptions")]),
      ("code_structure", .pdict [
        ("class_organization", .plist [.pstr "static fields", .pstr "instance fields",
          .pstr "constructors", .pstr "public methods", .pstr "protected methods",
          .pstr "private methods"]),
        ("method_length", .pstr "prefer < 40 lines"),
        ("class_length", .pstr "prefer < 1000 lines")]),
      ("performance", .pdict [
        ("prefer_StringBuilder", .pstr "for string concatenation in loops"),
        ("resource_management", .pstr "use try-with-resources"),
        ("collection_sizing", .pstr "initialize with expected capacity")]),
      ("testing", .pdict [
        ("framework", .pstr "JUnit 5"),
        ("naming", .pstr "test<MethodName>_<TestScenario>"),
        ("coverage_target", .pstr "80% method coverage")]),
      ("design_patterns", .pdict [
        ("recommended", .plist [.pstr "Builder for complex objects",
          .pstr "Factory Method for object creation",
          .pstr "Strategy for algorithm selection"]),
        ("avoid", .plist [.pstr "Singleton (use dependency injection)",
          .pstr "Deep inheritance hierarchies"])])])]

/-- Source `PRReviewerAgent.load_default_standards()`. -/
def load_default_standards (m : MemorySystem) : MemorySystem :=
  update_coding_standards m default_standards

/-- The Ledger state after loading the defaults and then registering
`{Java: {a: 1}}` followed by `{Java: {b: 2}}`. -/
def c5State : MemorySystem :=
  update_coding_standards
    (update_coding_standards (load_default_standards memEmpty)
      [("Java", .pdict [("a", .pint 1)])])
    [("Java", .pdict [("b", .pint 2)])]

/-- C5: registering `{Java: {a: 1}}` and then `{Java: {b: 2}}` leaves the
"Java" entry equal to exactly `{b: 2}` — the per-language document is
shallow-overwritten, not deep-merged — while the default "Python" document
loaded earlier remains unchanged (and is present). -/
theorem c5_standards_shallow_merge :
    dget c5State.coding_standards "Java" = some (.pdict [("b", .pint 2)]) ∧
    dget c5State.coding_standards "Python" =
      dget (load_default_standards memEmpty).coding_standards "Python" ∧
    dget (load_default_standards memEmpty).coding_standards "Python" =
      some (.pdict [
        ("style_guide", .pstr "PEP 8"),
        ("max_line_length", .pint 88),
        ("docstring_style", .pstr "Google style"),
        ("prefer_type_hints", .pbool true)]) :=
  ⟨rfl, rfl, rfl⟩

/- ## C6 — partial repository failure during scan -/

/-- C6: if listing the open PRs of the middle repository raises, `scan`
still returns the PRs of the repositories scanned before and after it; the
failure only drops the contribution of that one repository. -/
theorem c6_scan_survives_repo_error :
    ∀ (env : Env) (mem : MemorySystem) (rA rB rC : String)
      (prsA prsC : List PRInfo) (e : String),
      mem.org_repos = [rA, rB, rC] →
      env.open_prs rA = .ok prsA →
      env.open_prs rB = .error e →
      env.open_prs rC = .ok prsC →
      scan_for_new_prs env mem =
        prsA.map (fun pr => { repo := rA, pr := pr }) ++
        prsC.map (fun pr => { repo := rC, pr := pr }) := by
  intro env mem rA rB rC prsA prsC e hrepos hA hB hC
  simp [scan_for_new_prs, hrepos, hA, hB, hC]

/-- Concrete PRs and environment witnessing C6. -/
def prInfoA : PRInfo :=
  { id := 11, number := 1, title := "tA", user := "uA",
    created_at := "2024-01-01T00:00:00", updated_at := "2024-01-02T00:00:00",
    url := "http://example/a/1" }

def prInfoC : PRInfo :=
  { id := 31, number := 3, title := "tC", user := "uC",
    created_at := "2024-01-03T00:00:00", updated_at := "2024-01-04T00:00:00",
    url := "http://example/c/3" }

def envC6 : Env :=
  { org_repos := ["A", "B", "C"],
    open_prs := fun r =>
      if r = "A" then .ok [prInfoA]
      else if r = "B" then .error "API rate limit exceeded"
      else .ok [prInfoC],
    pr_files := fun _ _ => .ok [],
    llm := fun _ _ _ => .ok (some (.pdict [])),
    submit := fun _ _ _ _ _ => .ok { id := 1, body := "", state := "COMMENTED" },
    now := 0 }

def memC6 : MemorySystem := { memEmpty with org_repos := ["A", "B", "C"] }

/-- Witness for C6: the concrete partial scan keeps repositories A and C. -/
theorem c6_scan_survives_repo_error_witness :
    scan_for_new_prs envC6 memC6 =
      [{ repo := "A", pr := prInfoA }, { repo := "C", pr := prInfoC }] :=
  c6_scan_survives_repo_error envC6 memC6 "A" "B" "C" [prInfoA] [prInfoC]
    "API rate limit exceeded" rfl rfl rfl rfl

/- ## C9 — Ledger monotonicity -/

/-- The MemorySystem mutators invoked by the agent, as an operation alphabet
for reasoning about arbitrary operation sequences. -/
inductive MemOp where
  | store (pr_id : String) (review_data : ReviewData) (t : Nat)
  | updateStandards (standards : List (String × PyVal))
  | setRepos (repos : List String)

/-- Apply one MemorySystem operation. -/
def applyOp (m : MemorySystem) : MemOp → MemorySystem
  | .store pr_id d t => store_review m pr_id d t
  | .updateStandards s => update_coding_standards m s
  | .setRepos rs => set_org_repos m rs

/-- Apply a sequence of MemorySystem operations in order. -/
def applyOps (m : MemorySystem) (ops : List MemOp) : MemorySystem :=
  ops.foldl applyOp m

/-- The record most recently stored under key `k` by a sequence of
operations, if any. -/
def lastStore (ops : List MemOp) (k : String) : Option ReviewData :=
  ops.foldl
    (fun acc op => match op with
      | .store k' d _ => if k' = k then some d else acc
      | _ => acc)
    none

/-- How many `store_review` calls a sequence of operations makes. -/
def countStores (ops : List MemOp) : Nat :=
  (ops.filter (fun op => match op with | .store _ _ _ => true | _ => false)).length

/-- First-some choice on options. -/
def optOr {α : Type} : Option α → Option α → Option α
  | some a, _ => some a
  | none, b => b

theorem lastStore_foldl_init (ops : List MemOp) (k : String)
    (a : Option ReviewData) :
    ops.foldl
      (fun acc op => match op with
        | MemOp.store k' d _ => if k' = k then some d else acc
        | _ => acc) a =
    optOr (lastStore ops k) a := by
  induction ops generalizing a with
  | nil => cases a <;> rfl
  | cons op ops ih =>
    cases op with
    | store k' d t =>
      by_cases h : k' = k
      · simp only [lastStore, List.foldl_cons, if_pos h]
        rw [ih]
        cases hls : lastStore ops k <;> rfl
      · simp only [lastStore, List.foldl_cons, if_neg h]
        rw [ih, ih]
        cases hls : lastStore ops k <;> cases a <;> rfl
    | updateStandards s =>
      simp only [lastStore, List.foldl_cons]
      rw [ih, ih]
      cases hls : lastStore ops k <;> cases a <;> rfl
    | setRepos rs =>
      simp only [lastStore, List.foldl_cons]
      rw [ih, ih]
      cases hls : lastStore ops k <;> cases a <;> rfl

/-- C9: the Ledger only grows.  No MemorySystem operation removes a key from
`reviewed_prs`; `store_review` appends exactly one `(key, timestamp, record)`
entry to `review_history`; after any operation sequence `get_review` returns
the most recently stored record for the key (falling back to the prior
state); and the history grows by exactly the number of `store_review` calls. -/
theorem c9_ledger_monotone :
    (∀ (m : MemorySystem) (op : MemOp) (k : String),
      (get_review m k).isSome = true → (get_review (applyOp m op) k).isSome = true) ∧
    (∀ (m : MemorySystem) (k : String) (d : ReviewData) (t : Nat),
      (store_review m k d t).review_history = m.review_history ++ [⟨k, t, d⟩]) ∧
    (∀ (m : MemorySystem) (ops : List MemOp) (k : String),
      get_review (applyOps m ops) k = optOr (lastStore ops k) (get_review m k)) ∧
    (∀ (m : MemorySystem) (ops : List MemOp),
      (applyOps m ops).review_history.length =
        m.review_history.length + countStores ops) := by
  refine ⟨?_, ?_, ?_, ?_⟩
  · intro m op k h
    cases op with
    | store k' d t =>
      simp only [applyOp, get_review, store_review, dget_dset]
      by_cases hk : k = k' <;> simp [hk] <;> (try simpa [get_review] using h)
    | updateStandards s => simpa [applyOp, get_review, update_coding_standards] using h
    | setRepos rs => simpa [applyOp, get_review, set_org_repos] using h
  · intro m k d t
    rfl
  · intro m ops k
    induction ops generalizing m with
    | nil => rfl
    | cons op ops ih =>
      cases op with
      | store k' d t =>
        simp only [applyOps, List.foldl_cons, lastStore, applyOp]
        rw [show (ops.foldl applyOp (store_review m k' d t)) =
              applyOps (store_review m k' d t) ops from rfl, ih]
        by_cases h : k' = k
        · rw [if_pos h, lastStore_foldl_init]
          have : get_review (store_review m k' d t) k = some d := by
            simp [get_review, store_review, dget_dset, h]
          rw [this]
          cases hls : lastStore ops k <;> rfl
        · rw [if_neg h, lastStore_foldl_init]
          have : get_review (store_review m k' d t) k = get_review m k := by
            simp [get_review, store_review, dget_dset]
            intro hk
            exact absurd hk.symm h
          rw [this]
          cases hls : lastStore ops k <;> cases hg : get_review m k <;> rfl
      | updateStandards s =>
        simp only [applyOps, List.foldl_cons, lastStore, applyOp]
        rw [show (ops.foldl applyOp (update_coding_standards m s)) =
              applyOps (update_coding_standards m s) ops from rfl, ih]
        rw [lastStore_foldl_init]
        have : get_review (update_coding_standards m s) k = get_review m k := rfl
        rw [this]
        cases hls : lastStore ops k <;> cases hg : get_review m k <;> rfl
      | setRepos rs =>
        simp only [applyOps, List.foldl_cons, lastStore, applyOp]
        rw [show (ops.foldl applyOp (set_org_repos m rs)) =
              applyOps (set_org_repos m rs) ops from rfl, ih]
        rw [lastStore_foldl_init]
        have : get_review (set_org_repos m rs) k = get_review m k := rfl
        rw [this]
        cases hls : lastStore ops k <;> cases hg : get_review m k <;> rfl
  · intro m ops
    induction ops generalizing m with
    | nil => simp [applyOps, countStores]
    | cons op ops ih =>
      cases op with
      | store k' d t =>
        simp only [applyOps, List.foldl_cons, applyOp] at *
        rw [ih]
        simp [countStores, store_review, List.filter]
        omega
      | updateStandards s =>
        simp only [applyOps, List.foldl_cons, applyOp] at *
        rw [ih]
        simp [countStores, update_coding_standards, List.filter]
      | setRepos rs =>
        simp only [applyOps, List.foldl_cons, applyOp] at *
        rw [ih]
        simp [countStores, set_org_repos, List.filter]

/-- A concrete stored record for the C9 witness. -/
def rdDemo : ReviewData :=
  { review_id := 5, pr_number := 1, repo_name := "repoA", comment_count := 0,
    summary := "", overall_analysis := { file_count := 0, total_changes := 0,
                                         file_analyses := [] } }

def memC9 : MemorySystem := store_review memEmpty "repoA_1" rdDemo 42

/-- Witness for C9: a key present in the Ledger survives a further operation. -/
theorem c9_ledger_monotone_witness :
    (get_review (applyOp memC9 (.setRepos ["r2"])) "repoA_1").isSome = true :=
  c9_ledger_monotone.1 memC9 (.setRepos ["r2"]) "repoA_1" (by decide)

/- ## C4 — score aggregation -/

/-- The `file_analyses` of a successful review result (empty on error). -/
def resultAnalyses (o : RPROut) : List FileAnalysis :=
  match o.res with
  | .ok d => d.overall_analysis.file_analyses
  | .err _ => []

/-- The rendered summary of a successful review result (empty on error). -/
def resultSummary (o : RPROut) : String :=
  match o.res with
  | .ok d => d.summary
  | .err _ => ""

/-- Whether `pat` starts the character list. -/
def listStartsWith : List Char → List Char → Bool
  | [], _ => true
  | _ :: _, [] => false
  | a :: as, b :: bs => a = b && listStartsWith as bs

/-- Substring scan helper. -/
def strContainsAux (needle : List Char) : List Char → Bool
  | [] => listStartsWith needle []
  | c :: cs => listStartsWith needle (c :: cs) || strContainsAux needle cs

/-- Whether `pat` occurs as a substring of `s`. -/
def strContains (s pat : String) : Bool := strContainsAux pat.data s.data

/-- C4 scenario: three analyzed files scoring 8, 6 and 4 and one file with
empty content that is skipped. -/
def fileScore8 : FileChange :=
  { filename := "a.py", status := "modified", additions := 2, deletions := 1,
    changes := 3, patch := "@@", content := "x = 1\n" }

def fileScore6 : FileChange :=
  { filename := "b.py", status := "modified", additions := 1, deletions := 1,
    changes := 2, patch := "@@", content := "y = 2\n" }

def fileScore4 : FileChange :=
  { filename := "c.py", status := "added", additions := 4, deletions := 0,
    changes := 4, patch := "@@", content := "z = 3\n" }

def fileSkipped : FileChange :=
  { filename := "skip.bin", status := "added", additions := 0, deletions := 0,
    changes := 5, patch := "", content := "" }

def envC4 : Env :=
  { org_repos := ["demo"],
    open_prs := fun _ => .ok [],
    pr_files := fun _ _ => .ok [fileScore8, fileScore6, fileScore4, fileSkipped],
    llm := fun _ path _ =>
      if path = "a.py" then .ok (some (.pdict [("code_quality_score", .pint 8)]))
      else if path = "b.py" then .ok (some (.pdict [("code_quality_score", .pint 6)]))
      else .ok (some (.pdict [("code_quality_score", .pint 4)])),
    submit := fun _ _ _ _ _ => .ok { id := 9, body := "", state := "COMMENTED" },
    now := 0 }

/-- C4: the request-level average is the mean over the files that produced a
score only; with scores [8, 6, 4] and one skipped file it is exactly 6 and
the summary renders it as "6.0/10"; an empty list of scored files yields 0
rather than an error. -/
theorem c4_score_aggregation :
    avgQuality (resultAnalyses (review_pull_request envC4 memEmpty "demo" 12)) =
      .ok 6 ∧
    strContains (resultSummary (review_pull_request envC4 memEmpty "demo" 12))
      "Overall code quality score: 6.0/10" = true ∧
    avgQuality [] = .ok 0 := by
  refine ⟨by with_unfolding_all rfl, by with_unfolding_all rfl, rfl⟩

/- ## C8 — missing-key defaulting -/

theorem format_review_comments_no_keys (fields : List (String × PyVal)) (path : String)
    (h1 : dhas fields "issues" = false) (h2 : dhas fields "suggested_changes" = false) :
    format_review_comments (.pdict fields) path = .ok [] := by
  simp only [format_review_comments, pyGet, dget_eq_none_of_dhas_false _ _ h1,
             dget_eq_none_of_dhas_false _ _ h2]
  rfl

/-- C8: an oracle answer that parses as a JSON object but lacks the
`issues` / `suggested_changes` / `code_quality_score` keys is consumed with
empty/zero defaults: `format_review_comments` produces no comments, and the
per-file loop completes without raising, appending an analysis entry with
score 0 and zero issue/suggestion counts. -/
theorem c8_missing_key_defaults :
    (∀ (fields : List (String × PyVal)) (path : String),
      dhas fields "issues" = false → dhas fields "suggested_changes" = false →
      format_review_comments (.pdict fields) path = .ok []) ∧
    (∀ (env : Env) (mem : MemorySystem) (acc : FoldAcc) (file : FileChange)
       (fields : List (String × PyVal)),
      acc.err = none →
      ¬(file.content = "" ∨ 100000 < file.content.length) →
      env.llm file.content file.filename
          ((dget mem.coding_standards (detect_language file.filename)).getD (.pdict [])) =
        .ok (some (.pdict fields)) →
      dhas fields "issues" = false →
      dhas fields "suggested_changes" = false →
      dhas fields "code_quality_score" = false →
      processFile env mem acc file =
        { comments := acc.comments,
          analyses := acc.analyses ++
            [{ filename := file.filename, code_quality_score := .pint 0,
               issue_count := 0, suggestion_count := 0 }],
          tr := acc.tr ++ [.oracleCall file.content file.filename],
          err := none }) := by
  refine ⟨format_review_comments_no_keys, ?_⟩
  intro env mem acc file fields herr hskip hllm h1 h2 h3
  have hmid : processFile env mem acc file =
      { comments := acc.comments ++ ([] : List Comment),
        analyses := acc.analyses ++
          [{ filename := file.filename, code_quality_score := .pint 0,
             issue_count := 0, suggestion_count := 0 }],
        tr := acc.tr ++ [.oracleCall file.content file.filename],
        err := none } := by
    unfold processFile
    rw [if_neg (by simp [herr]), if_neg hskip]
    simp only [analyze_code, hllm,
               format_review_comments_no_keys fields file.filename h1 h2, pyGet,
               dget_eq_none_of_dhas_false _ _ h1, dget_eq_none_of_dhas_false _ _ h2,
               dget_eq_none_of_dhas_false _ _ h3]
    rfl
  rw [hmid]
  simp

/-- Concrete witness data for C8: an answer object carrying only
`general_feedback`. -/
def c8Fields : List (String × PyVal) := [("general_feedback", .pstr "looks fine")]

def envC8 : Env :=
  { org_repos := ["demo"],
    open_prs := fun _ => .ok [],
    pr_files := fun _ _ => .ok [fileGood],
    llm := fun _ _ _ => .ok (some (.pdict c8Fields)),
    submit := fun _ _ _ _ _ => .ok { id := 3, body := "", state := "COMMENTED" },
    now := 0 }

/-- Witness for C8 at the concrete oracle answer without the three keys. -/
theorem c8_missing_key_defaults_witness :
    format_review_comments (.pdict c8Fields) "good.py" = .ok [] ∧
    processFile envC8 memEmpty ⟨[], [], [], none⟩ fileGood =
      { comments := [],
        analyses := [{ filename := "good.py", code_quality_score := .pint 0,
                       issue_count := 0, suggestion_count := 0 }],
        tr := [.oracleCall "print(1)\n" "good.py"],
        err := none } :=
  ⟨c8_missing_key_defaults.1 c8Fields "good.py" rfl rfl,
   c8_missing_key_defaults.2 envC8 memEmpty ⟨[], [], [], none⟩ fileGood c8Fields rfl
     (by decide) rfl rfl rfl rfl⟩

/- ## C2 — atomicity on malformed oracle output -/

/-- C2 scenario: the oracle transport succeeds (status 200) but the embedded
answer text is not valid JSON, so `json.loads` raises inside the loop. -/
def envC2 : Env :=
  { org_repos := ["repoA"],
    open_prs := fun _ => .ok [],
    pr_files := fun _ _ => .ok [fileGood],
    llm := fun _ _ _ => .ok none,
    submit := fun _ _ _ _ _ => .ok { id := 2, body := "", state := "COMMENTED" },
    now := 0 }

/-- C2: whenever `review_pull_request` returns the error-shaped value, the
Ledger state is exactly the state before the call — no record is created or
updated and no history entry is appended, so the request stays eligible for
retry.  Concretely, a 200 oracle response whose text is not valid JSON makes
`review_pull_request` return the error dict and leave the memory untouched. -/
theorem c2_malformed_oracle_atomicity :
    (∀ (env : Env) (mem : MemorySystem) (repo_name : String) (pr_number : Nat)
       (m : String),
      (review_pull_request env mem repo_name pr_number).res = .err m →
      (review_pull_request env mem repo_name pr_number).st = mem) ∧
    (review_pull_request envC2 memEmpty "repoA" 7).res =
      .err (reviewErrMsg "repoA" 7 "json.decoder.JSONDecodeError: Expecting value") ∧
    (review_pull_request envC2 memEmpty "repoA" 7).st = memEmpty := by
  refine ⟨?_, rfl, rfl⟩
  intro env mem r n m h
  unfold review_pull_request at h ⊢
  split at h
  · rfl
  · dsimp only at h ⊢
    split at h
    · rfl
    · split at h
      · rfl
      · split at h
        · rfl
        · simp_all

/-- Witness for C2: the concrete malformed-JSON review leaves the Ledger
unchanged (via the general atomicity conjunct). -/
theorem c2_malformed_oracle_atomicity_witness :
    (review_pull_request envC2 memEmpty "repoA" 7).st = memEmpty :=
  c2_malformed_oracle_atomicity.1 envC2 memEmpty "repoA" 7
    (reviewErrMsg "repoA" 7 "json.decoder.JSONDecodeError: Expecting value") rfl

/- ## C7 — error-string content (the code analyzes it; it is not skipped) -/

/-- C7 scenario: `_get_file_content` failed, so the file's content is the
error-string placeholder returned by the GitHub connector. -/
def fileErrContent : FileChange :=
  { filename := "m.py", status := "modified", additions := 0, deletions := 0,
    changes := 1, patch := "",
    content := "Error retrieving content: 404 Not Found" }

def envC7 : Env :=
  { org_repos := ["demo"],
    open_prs := fun _ => .ok [],
    pr_files := fun _ _ => .ok [fileErrContent],
    llm := fun _ _ _ => .ok (some (.pdict [])),
    submit := fun _ _ _ _ _ => .ok { id := 4, body := "", state := "COMMENTED" },
    now := 0 }

/-- Counterexample to C7 as stated: for a file whose content is the
error-string placeholder, the per-file loop does NOT treat it as "no
content" — the placeholder is a non-empty string, it passes the
`not file["content"]` / size filter, and an oracle call IS made with the
placeholder text as the code to analyze. -/
theorem c7_counterexample_error_string_analyzed :
    TraceEv.oracleCall "Error retrieving content: 404 Not Found" "m.py" ∈
      (review_pull_request envC7 memEmpty "demo" 3).tr := by
  with_unfolding_all decide

/-- C7 (amended): when a file's content is an error-string placeholder the
review does not crash — `review_pull_request` completes normally — but the
file is not skipped: every file whose content is non-empty and within the
size ceiling (which includes the placeholder) triggers exactly one oracle
call. -/
theorem c7_error_string_content_amended :
    (∀ (env : Env) (mem : MemorySystem) (acc : FoldAcc) (file : FileChange),
      acc.err = none → file.content ≠ "" → file.content.length ≤ 100000 →
      (processFile env mem acc file).tr =
        acc.tr ++ [.oracleCall file.content file.filename]) ∧
    (review_pull_request envC7 memEmpty "demo" 3).res.isOk = true := by
  constructor
  · intro env mem acc file herr hne hlen
    unfold processFile
    rw [if_neg (by simp [herr]),
        if_neg (by push_neg; exact ⟨hne, by omega⟩)]
    dsimp only
    split
    · rfl
    · split
      · rfl
      · rfl
  · with_unfolding_all rfl

/-- Witness for C7 (amended) at the concrete error-string file. -/
theorem c7_error_string_content_amended_witness :
    (processFile envC7 memEmpty ⟨[], [], [], none⟩ fileErrContent).tr =
      [.oracleCall "Error retrieving content: 404 Not Found" "m.py"] :=
  c7_error_string_content_amended.1 envC7 memEmpty ⟨[], [], [], none⟩ fileErrContent
    rfl (by decide) (by decide)

/- ## C1 — at-most-once review -/

/-- Whether a trace event is an oracle POST (the only events the per-file
loop emits). -/
def isOracleEv : TraceEv → Bool
  | .oracleCall _ _ => true
  | _ => false

/-- Whether a trace event is a `review_pull_request` entry or a
`submit_review` call for the given dedup key. -/
def evForKey (key : String) : TraceEv → Bool
  | .oracleCall _ _ => false
  | .reviewCall r n => decide (prKey r n = key)
  | .submitCall r n => decide (prKey r n = key)

/-- No `review_pull_request` entry and no `submit_review` call for `key`
occurs in the trace. -/
def noCallFor (key : String) (tr : List TraceEv) : Bool :=
  tr.all (fun ev => !(evForKey key ev))

theorem noCallFor_append (key : String) (a b : List TraceEv) :
    noCallFor key (a ++ b) = (noCallFor key a && noCallFor key b) := by
  simp [noCallFor, List.all_append]

theorem noCallFor_cons (key : String) (ev : TraceEv) (tr : List TraceEv) :
    noCallFor key (ev :: tr) = (!(evForKey key ev) && noCallFor key tr) := rfl

theorem noCallFor_of_all_oracle (key : String) (tr : List TraceEv)
    (h : tr.all isOracleEv = true) : noCallFor key tr = true := by
  induction tr with
  | nil => rfl
  | cons ev tr ih =>
    simp only [List.all_cons, Bool.and_eq_true] at h
    rw [noCallFor_cons, ih h.2]
    cases ev with
    | oracleCall c f => rfl
    | reviewCall r n => simp [isOracleEv] at h
    | submitCall r n => simp [isOracleEv] at h

theorem processFile_tr_oracle (env : Env) (mem : MemorySystem) (acc : FoldAcc)
    (file : FileChange) (h : acc.tr.all isOracleEv = true) :
    (processFile env mem acc file).tr.all isOracleEv = true := by
  unfold processFile
  split
  · exact h
  · split
    · exact h
    · dsimp only
      split
      · simp [List.all_append, h, isOracleEv]
      · split <;> simp [List.all_append, h, isOracleEv]

theorem foldl_processFile_tr_oracle (env : Env) (mem : MemorySystem)
    (files : List FileChange) :
    ∀ acc : FoldAcc, acc.tr.all isOracleEv = true →
      (files.foldl (processFile env mem) acc).tr.all isOracleEv = true := by
  induction files with
  | nil => intro acc h; exact h
  | cons f fs ih =>
    intro acc h
    exact ih _ (processFile_tr_oracle env mem acc f h)

theorem rpr_tr_calls (env : Env) (mem : MemorySystem) (r : String) (n : Nat)
    (key : String) (hk : prKey r n ≠ key) :
    noCallFor key (review_pull_request env mem r n).tr = true := by
  unfold review_pull_request
  rcases hf : env.pr_files r n with e | files
  · simp [noCallFor, evForKey, hk]
  · dsimp only
    have hnc : noCallFor key
        (List.foldl (processFile env mem)
          { comments := [], analyses := [], tr := [], err := none } files).tr = true :=
      noCallFor_of_all_oracle key _
        (foldl_processFile_tr_oracle env mem files _ rfl)
    split
    · rw [noCallFor_cons, hnc]
      simp [evForKey, hk]
    · split
      · rw [noCallFor_cons, hnc]
        simp [evForKey, hk]
      · split <;>
        · dsimp only
          rw [noCallFor_append, noCallFor_cons, hnc]
          simp [noCallFor, evForKey, hk]

theorem rpr_st_cases (env : Env) (mem : MemorySystem) (r : String) (n : Nat) :
    (review_pull_request env mem r n).st = mem ∨
    ∃ d : ReviewData, (review_pull_request env mem r n).st =
      store_review mem (prKey r n) d env.now := by
  unfold review_pull_request
  split
  · exact Or.inl rfl
  · dsimp only
    split
    · exact Or.inl rfl
    · split
      · exact Or.inl rfl
      · split
        · exact Or.inl rfl
        · exact Or.inr ⟨_, rfl⟩

theorem rpr_preserves_dhas (env : Env) (mem : MemorySystem) (r : String) (n : Nat)
    (key : String) (h : dhas mem.reviewed_prs key = true) :
    dhas (review_pull_request env mem r n).st.reviewed_prs key = true := by
  rcases rpr_st_cases env mem r n with h1 | ⟨d, h1⟩ <;> rw [h1]
  · exact h
  · simp [store_review, dhas_dset, h]

theorem rpr_ok_dhas (env : Env) (mem : MemorySystem) (r : String) (n : Nat)
    (h : (review_pull_request env mem r n).res.isOk = true) :
    dhas (review_pull_request env mem r n).st.reviewed_prs (prKey r n) = true := by
  unfold review_pull_request at h ⊢
  split at h
  · simp [ReviewResult.isOk] at h
  · dsimp only at h ⊢
    split at h
    · simp [ReviewResult.isOk] at h
    · split at h
      · simp [ReviewResult.isOk] at h
      · split at h
        · simp [ReviewResult.isOk] at h
        · simp [store_review, dhas_dset]

theorem cycleFold_inv (env : Env) (key : String) (prs : List PRItem) :
    ∀ (mem : MemorySystem) (tr : List TraceEv),
      dhas mem.reviewed_prs key = true → noCallFor key tr = true →
      dhas (prs.foldl (cycleStep env) (mem, tr)).1.reviewed_prs key = true ∧
      noCallFor key (prs.foldl (cycleStep env) (mem, tr)).2 = true := by
  induction prs with
  | nil => intro mem tr h1 h2; exact ⟨h1, h2⟩
  | cons pr prs ih =>
    intro mem tr h1 h2
    rw [List.foldl_cons]
    unfold cycleStep
    dsimp only
    by_cases hd : dhas mem.reviewed_prs (prKey pr.repo pr.pr.number) = true
    · rw [if_pos hd]
      exact ih mem tr h1 h2
    · rw [if_neg hd]
      have hkney : prKey pr.repo pr.pr.number ≠ key := fun he => hd (by rw [he]; exact h1)
      apply ih
      · exact rpr_preserves_dhas env mem pr.repo pr.pr.number key h1
      · rw [noCallFor_append, h2,
            rpr_tr_calls env mem pr.repo pr.pr.number key hkney]
        rfl

theorem cycle_inv (env : Env) (mem : MemorySystem) (key : String)
    (h : dhas mem.reviewed_prs key = true) :
    dhas (run_continuous_cycle env mem).1.reviewed_prs key = true ∧
    noCallFor key (run_continuous_cycle env mem).2 = true := by
  unfold run_continuous_cycle
  dsimp only
  exact cycleFold_inv env key _ _ [] h rfl

theorem cycles_inv (env : Env) (key : String) :
    ∀ (n : Nat) (mem : MemorySystem), dhas mem.reviewed_prs key = true →
      dhas (run_continuous_cycles env mem n).1.reviewed_prs key = true ∧
      noCallFor key (run_continuous_cycles env mem n).2 = true := by
  intro n
  induction n with
  | zero => intro mem h; exact ⟨h, rfl⟩
  | succ n ih =>
    intro mem h
    unfold run_continuous_cycles
    dsimp only
    have hc := cycle_inv env mem key h
    have hr := ih _ hc.1
    refine ⟨hr.1, ?_⟩
    rw [noCallFor_append, hc.2, hr.2]
    rfl

/-- C1: once `review_pull_request` has completed successfully (and hence
stored a ReviewRecord under `prKey repo_name pr_number`), no number of
subsequent scan-and-review passes of the continuous loop ever enters
`review_pull_request` — and hence never calls `submit_review` — for that
key again: Ledger membership permanently suppresses automatic re-review. -/
theorem c1_at_most_once_review :
    ∀ (env : Env) (mem : MemorySystem) (repo_name : String) (pr_number : Nat),
      (review_pull_request env mem repo_name pr_number).res.isOk = true →
      ∀ n : Nat,
        noCallFor (prKey repo_name pr_number)
          (run_continuous_cycles env
            (review_pull_request env mem repo_name pr_number).st n).2 = true := by
  intro env mem r nr h n
  exact (cycles_inv env (prKey r nr) n _ (rpr_ok_dhas env mem r nr h)).2

/-- C1 witness scenario: one repository with one open PR, which the agent
reviews successfully; two further continuous passes then make no review or
submit call for its key. -/
def envC1 : Env :=
  { org_repos := ["alpha"],
    open_prs := fun _ => .ok [{ id := 10, number := 1, title := "t", user := "u",
                                created_at := "", updated_at := "", url := "" }],
    pr_files := fun _ _ => .ok [],
    llm := fun _ _ _ => .ok (some (.pdict [])),
    submit := fun _ _ _ _ _ => .ok { id := 1, body := "", state := "COMMENTED" },
    now := 0 }

/-- Witness for C1 at the concrete environment, running two further passes. -/
theorem c1_at_most_once_review_witness :
    noCallFor (prKey "alpha" 1)
      (run_continuous_cycles envC1
        (review_pull_request envC1 memEmpty "alpha" 1).st 2).2 = true :=
  c1_at_most_once_review envC1 memEmpty "alpha" 1 (by with_unfolding_all rfl) 2
